import Mathlib

/-!
Verification of the datashuttle naming/validation engine against its
specification.

Names (subject / session folder names) are modelled as lists of characters
(`Str`), mirroring Python strings.  Fallible code returns `Except`.

The repository sources under verification are:
  * `src/datashuttle/utils/getters.py` (number suggester),
  * `src/manager/utils.py` (name prefixing / duplicate check),
  * `src/datashuttle/configs/canonical_configs.py` (name-template defaults).
The helper modules `utils/utils.py`, `utils/validation.py` and
`utils/formatting.py` are not part of the provided sources (only their tests
and callers are); the definitions below that embed them carry a doc comment
starting with "Modelled from the spec:" and follow the specification's words,
corrected only where the repository's own integration tests pin the
behaviour (they are cited in place).
-/

set_option maxRecDepth 4000

/-- Python strings are modelled as lists of characters. -/
abbrev Str : Type := List Char

/-- The literal `@DATE@` tag (spec section 4.1, `canonical_tags`). -/
def date_tag : Str := "@DATE@".toList

/-- The literal `@TIME@` tag. -/
def time_tag : Str := "@TIME@".toList

/-- The literal `@DATETIME@` tag. -/
def datetime_tag : Str := "@DATETIME@".toList

/-- The `sub` key literal. -/
def sub_key : Str := "sub".toList

/-- The `ses` key literal. -/
def ses_key : Str := "ses".toList

/-- Modelled from the spec: the error message raised by
`utils.sub_or_ses_value_to_int` when a primary value is not numeric.  The
exact wording is pinned by `test_invalid_sub_and_ses_name` in
`src/tests/tests_integration/test_validation.py`. -/
def invalid_char_message (v : Str) : Str :=
  "Invalid character in subject or session value: ".toList ++ v

/-- Modelled from the spec: primary-value extraction used by
`utils.get_values_from_bids_formatted_name` for a single name.  Per the
spec's Name Parser / glossary, the primary value is the value component
immediately following the `sub`/`ses` key: the first `_`-delimited
component is split after `key-`. Returns `none` when the first component
does not start with `key-`. -/
def get_value_from_bids_name (key f : Str) : Option Str :=
  let comp := f.takeWhile (fun c => c != '_')
  if (key ++ ['-']).isPrefixOf comp then some (comp.drop (key.length + 1))
  else none

/-- Decimal digit-string to natural number, as Python `int()` on a digit
string. -/
def digits_to_nat (v : Str) : Nat :=
  v.foldl (fun acc c => 10 * acc + (c.toNat - 48)) 0

/-- Modelled from the spec: `utils.sub_or_ses_value_to_int`, converting a
primary value to an integer and failing with `InvalidCharacter` when the
value is not a non-empty run of digits. -/
def sub_or_ses_value_to_int (v : Str) : Except Str Nat :=
  if v.isEmpty || !(v.all Char.isDigit) then .error (invalid_char_message v)
  else .ok (digits_to_nat v)

/-- Modelled from the spec: `utils.get_values_from_bids_formatted_name`
with `return_as_int=False` — the list of primary value strings of the
given folder names (failing when a name does not carry the key). -/
def get_values_from_bids_formatted_name (key : Str) :
    List Str → Except Str (List Str)
  | [] => .ok []
  | f :: rest =>
    match get_value_from_bids_name key f with
    | none => .error ("Name does not contain the key ".toList ++ key)
    | some v =>
      match get_values_from_bids_formatted_name key rest with
      | .error e => .error e
      | .ok vs => .ok (v :: vs)

/-- The list comprehension
`[utils.sub_or_ses_value_to_int(value) for value in all_values_str]`
from `get_max_sub_or_ses_num_and_value_length` (getters.py line 169). -/
def values_to_ints : List Str → Except Str (List Nat)
  | [] => .ok []
  | v :: rest =>
    match sub_or_ses_value_to_int v with
    | .error e => .error e
    | .ok n =>
      match values_to_ints rest with
      | .error e => .error e
      | .ok ns => .ok (n :: ns)

/-- Error message of `get_max_sub_or_ses_num_and_value_length`
(getters.py lines 160-163). -/
def inconsistent_digits_message (key : Str) : Str :=
  "The number of value digits for the ".toList ++ key
    ++ " level are not consistent. Cannot suggest a ".toList ++ key
    ++ " number.".toList

/-- Embeds `get_max_sub_or_ses_num_and_value_length`
(getters.py lines 107-180).  The non-consecutive-numbers warning
(lines 172-176) does not affect the returned value and is not modelled.
Python's `len(set(xs)) != 1` is `xs.dedup.length ≠ 1`; `max(xs)` on the
(sorted) non-empty list is `xs.foldl max 0`; `xs[0]` is `xs.headD 0`. -/
def get_max_sub_or_ses_num_and_value_length (all_folders : List Str)
    (key : Str) (default_num_value_digits : Nat) : Except Str (Nat × Nat) :=
  if all_folders.length = 0 then .ok (0, default_num_value_digits)
  else
    match get_values_from_bids_formatted_name key all_folders with
    | .error e => .error e
    | .ok all_values_str =>
      let all_num_value_digits := all_values_str.map List.length
      if all_num_value_digits.dedup.length ≠ 1 then
        .error (inconsistent_digits_message key)
      else
        match values_to_ints all_values_str with
        | .error e => .error e
        | .ok all_value_nums =>
          .ok (all_value_nums.foldl max 0, all_num_value_digits.headD 0)

/-- Decimal digits of `n`, least significant first, with explicit fuel so
that the definition is structural (the fuel `n` always suffices since the
digit count of `n` is at most `n` for `n ≥ 1`). -/
def nat_digits_rev : Nat → Nat → Str
  | 0, _ => []
  | fuel + 1, n =>
    if n = 0 then [] else Nat.digitChar (n % 10) :: nat_digits_rev fuel (n / 10)

/-- Python `str(n)` for a natural number. -/
def nat_to_str (n : Nat) : Str :=
  if n = 0 then ['0'] else (nat_digits_rev n n).reverse

/-- Python `s.zfill(w)` on a digit string: left-pad with `'0'` to width `w`
(never truncates). -/
def zfill (s : Str) (w : Nat) : Str :=
  List.replicate (w - s.length) '0' ++ s

/-- Embeds `get_next_sub_or_ses_number` (getters.py lines 27-104).  The
folder scan (`folders.search_project_for_sub_or_ses_names`, an external
collaborator) is replaced by taking the de-duplicated union of local and
central folder names (`all_folders`, line 88) directly as input, and the
key (`"sub"` or `"ses"`, chosen on lines 79-82 from whether a subject was
passed) is a parameter. -/
def get_next_sub_or_ses_number (all_folders : List Str) (key : Str)
    (return_with_key : Bool) (default_num_value_digits : Nat) :
    Except Str Str :=
  match get_max_sub_or_ses_num_and_value_length all_folders key
      default_num_value_digits with
  | .error e => .error e
  | .ok (max_existing_num, num_value_digits) =>
    let suggested_new_num := max_existing_num + 1
    let fmt := zfill (nat_to_str suggested_new_num) num_value_digits
    .ok (if return_with_key then key ++ '-' :: fmt else fmt)

/-- Embeds `ensure_prefixes_on_list_of_names` (manager/utils.py lines
43-48): prepend `pfx` to every name whose first `len(pfx)` characters are
not `pfx`. -/
def ensure_prefixes_on_list_of_names (names : List Str) (pfx : Str) :
    List Str :=
  names.map (fun name => if name.take pfx.length ≠ pfx then pfx ++ name else name)

/-- Error message of `process_names` (manager/utils.py lines 96-100),
verbatim including its typos. -/
def duplicate_names_message : Str :=
  "Subject and session names but all be unqiue (i.e. there are no duplicates in list input)".toList

/-- Embeds `process_names` (manager/utils.py lines 74-102) for a list
input (a single string is wrapped into a one-element list by the source
before this logic; the dynamic type check cannot fail in the typed
embedding).  Python's `len(set(xs)) != len(xs)` is
`xs.dedup.length ≠ xs.length`. -/
def process_names (names : List Str) (pfx : Str) : Except Str (List Str) :=
  let prefixed_names := ensure_prefixes_on_list_of_names names pfx
  if prefixed_names.dedup.length ≠ prefixed_names.length then
    .error duplicate_names_message
  else .ok prefixed_names

/-- A validation issue (spec section 3, `ValidationIssue`): a tagged
variant identifying the kind of problem together with the names involved. -/
inductive IssueKind : Type
  | duplicateId (new_name existing_name : Str)
  | inconsistentPadding (key : Str)
  | templateMismatch (name template : Str)
  | invalidCharacter (value : Str)
  deriving DecidableEq

/-- A validation issue with its user-facing message. -/
structure Issue where
  kind : IssueKind
  message : Str
  deriving DecidableEq

/-- Duplicate-id issue; the message is pinned verbatim by
`test_duplicate_ses_or_sub_key_value_pair` and
`test_validate_names_against_project` in
`src/tests/tests_integration/test_validation.py`. -/
def mk_duplicate_issue (key new_name exist_name : Str) : Issue :=
  ⟨IssueKind.duplicateId new_name exist_name,
    "A ".toList ++ key ++ " already exists with the same ".toList ++ key
      ++ " id as ".toList ++ new_name ++ ". The existing folder is ".toList
      ++ exist_name ++ ".".toList⟩

/-- Inconsistent-padding issue; the message is pinned verbatim by
`check_inconsistent_sub_or_ses_value_length_warning` in
`src/tests/tests_integration/test_validation.py`. -/
def mk_padding_issue (key : Str) : Issue :=
  ⟨IssueKind.inconsistentPadding key,
    "Inconsistent value lengths for the key ".toList ++ key
      ++ " were found. Ensure the number of digits for the ".toList ++ key
      ++ " value are the same and prefixed with leading zeros if required.".toList⟩

/-- Template-mismatch issue; the message is pinned verbatim by
`test_persistent_settings_name_templates` in
`src/tests/tests_integration/test_settings.py`. -/
def mk_template_issue (name t : Str) : Issue :=
  ⟨IssueKind.templateMismatch name t,
    "The name: ".toList ++ name ++ " does not match the template: ".toList ++ t⟩

/-- Modelled from the spec: the primary numeric id of a name (the integer
parse of the primary value), used by duplicate-id detection.  `none` when
the name has no `key-` component or the value is not numeric.  That ids
are compared numerically (so `sub-2` and `sub-002` collide) is pinned by
`test_validate_names_against_project`. -/
def primary_id_num (key n : Str) : Option Nat :=
  match get_value_from_bids_name key n with
  | none => none
  | some v =>
    match sub_or_ses_value_to_int v with
    | .ok k => some k
    | .error _ => none

/-- Modelled from the spec: duplicate key-id detection
(`validation.new_name_duplicates`, spec section 4.4 (a)) of one candidate
against the existing names at the same hierarchy level: an issue for
every existing name with the same numeric id but a different full name;
a byte-identical existing name is never an issue. -/
def new_name_duplicate_issues (key c : Str) (existing : List Str) :
    List Issue :=
  existing.filterMap (fun e =>
    if (primary_id_num key c).isSome = true
        ∧ primary_id_num key e = primary_id_num key c ∧ e ≠ c then
      some (mk_duplicate_issue key c e)
    else none)

/-- Modelled from the spec: the primary value of a name when it is a
non-empty digit run, else `none` (spec section 4.4 (b): non-numeric
primary values are excluded from the padding-length set). -/
def numeric_value (key n : Str) : Option Str :=
  match get_value_from_bids_name key n with
  | none => none
  | some v =>
    if v.isEmpty = false ∧ v.all Char.isDigit = true then some v else none

/-- Modelled from the spec: the digit counts (including leading zeros) of
all numeric primary values in a collection of names at one hierarchy
level. -/
def padding_value_lengths (key : Str) (names : List Str) : List Nat :=
  (names.filterMap (numeric_value key)).map List.length

/-- Modelled from the spec: inconsistent zero-padding detection
(`validation.check_inconsistent_sub_or_ses_value_lengths`, spec section
4.4 (b)): emit `InconsistentPadding` naming the key exactly when the
digit counts are not all equal. -/
def check_inconsistent_padding (key : Str) (names : List Str) :
    Option Issue :=
  if 1 < (padding_value_lengths key names).dedup.length then
    some (mk_padding_issue key)
  else none

/-- Modelled from the spec: `validation.validate_names_against_project`
at one hierarchy level (subjects globally, or the sessions of one
subject), over the merged local+central existing names.  Produces the
padding issues over existing plus candidate names, followed by the
duplicate-id issues of each candidate against the existing names.  The
ordering — padding issues before duplicate-id issues — is pinned by the
repository's own tests (`test_duplicate_sub_and_ses_num_leading_zeros`
asserts the error raised for existing `sub-1`, candidate `sub-001` is the
padding one, and `test_validate_project` receives the padding warning
first), which contradict the spec's stated "duplicates before padding"
order. -/
def validate_names_against_project (existing candidates : List Str)
    (key : Str) : List Issue :=
  (check_inconsistent_padding key (existing ++ candidates)).toList
    ++ (candidates.map (fun c => new_name_duplicate_issues key c existing)).flatten

/-- Modelled from the spec: `error` severity mode (spec section 4.4):
raise the first issue of the scan, halting the operation; succeed when the
scan finds no issue. -/
def validate_names_error_mode (existing candidates : List Str)
    (key : Str) : Except Issue Unit :=
  match validate_names_against_project existing candidates key with
  | [] => .ok ()
  | i :: _ => .error i

/-- Whether an issue is a duplicate-id issue. -/
def issue_is_duplicate_id (i : Issue) : Bool :=
  match i.kind with
  | IssueKind.duplicateId _ _ => true
  | _ => false

/-- The persistent name-template configuration (spec section 3,
`NameTemplateConfig`). -/
structure NameTemplates where
  on_flag : Bool
  sub : Option Str
  ses : Option Str
  deriving DecidableEq

/-- Embeds `get_name_templates_defaults`
(canonical_configs.py lines 299-300). -/
def get_name_templates_defaults : NameTemplates := ⟨false, none, none⟩

/-- The template stored for a given key (`"sub"` or `"ses"`). -/
def template_for (tcfg : NameTemplates) (key : Str) : Option Str :=
  if key = sub_key then tcfg.sub
  else if key = ses_key then tcfg.ses
  else none

/-- Modelled from the spec: the Template Matcher (spec section 4.3).  The
regular-expression engine is an external collaborator, passed in as
`match_fn : template → name → Bool`.  When `on` is false the stage is
skipped entirely; when a template is set for the key and the raw name
fails to match, a `TemplateMismatch` issue carrying both strings is
produced. -/
def check_name_templates (match_fn : Str → Str → Bool)
    (tcfg : NameTemplates) (key name : Str) : Option Issue :=
  if tcfg.on_flag = false then none
  else
    match template_for tcfg key with
    | none => none
    | some t => if match_fn t name then none else some (mk_template_issue name t)

/-- Replace every occurrence of `pat` in the text by `repl`, scanning left
to right without overlap, as Python `str.replace`.  The fuel (always the
text's length at the call site) makes the recursion structural; each step
consumes at least one character of text, so the fuel never runs out. -/
def replace_all_fuel (pat repl : Str) : Nat → Str → Str
  | 0, text => text
  | _ + 1, [] => []
  | fuel + 1, c :: rest =>
    if pat.isPrefixOf (c :: rest) && !pat.isEmpty then
      repl ++ replace_all_fuel pat repl fuel ((c :: rest).drop pat.length)
    else c :: replace_all_fuel pat repl fuel rest

/-- Python `text.replace(pat, repl)`. -/
def replace_all (pat repl text : Str) : Str :=
  replace_all_fuel pat repl text.length text

/-- Modelled from the spec: the Tag Expander
(`formatting.update_names_with_datetime`, spec section 4.1), with the
wall clock injected as the pre-formatted `date` (YYYYMMDD) and `time`
(HHMMSS) strings.  `@DATETIME@` becomes `datetime-` followed by
`date`, `T`, `time` — the `datetime-` key (rather than the spec's
`date-`) is pinned by `test_datetime_flag_in_session` in
`src/tests/tests_integration/test_make_folders.py`, whose regular
expression is `datetime-{date}T\d{6}`.  `@DATE@` and `@TIME@` become the
date and time values per the spec's words.  A name containing no tag is
returned unchanged. -/
def replace_date_time_tags_in_name (date time name : Str) : Str :=
  replace_all time_tag time
    (replace_all date_tag date
      (replace_all datetime_tag
        ("datetime-".toList ++ date ++ ['T'] ++ time) name))

/-- The primary value strings of a list of folder names (those names that
carry the key), used to state properties of the number suggester. -/
def primary_values (key : Str) (folders : List Str) : List Str :=
  folders.filterMap (get_value_from_bids_name key)

/-- The primary values of a list of folder names read as numbers. -/
def primary_value_nums (key : Str) (folders : List Str) : List Nat :=
  (primary_values key folders).map digits_to_nat

/-- Modelled from the spec: the two-level scan of
`validation.validate_names_against_project` when both subject and
session candidates are passed (spec section 4.4): the subject-level
candidates are checked against the existing subjects first, and then,
per requested subject, the session candidates are checked against that
subject's existing sessions (the per-subject existing-session sets,
merged across local and central, are supplied by the folder-scanner
collaborator `existing_ses`). -/
def validate_sub_and_ses_names (existing_subs : List Str)
    (existing_ses : Str → List Str) (sub_names ses_names : List Str) :
    List Issue :=
  validate_names_against_project existing_subs sub_names sub_key
    ++ (sub_names.map (fun s =>
        validate_names_against_project (existing_ses s) ses_names ses_key)).flatten

/-- Modelled from the spec: `error` severity mode over the two-level
scan: raise the first issue encountered, halting the operation. -/
def validate_sub_and_ses_error_mode (existing_subs : List Str)
    (existing_ses : Str → List Str) (sub_names ses_names : List Str) :
    Except Issue Unit :=
  match validate_sub_and_ses_names existing_subs existing_ses
      sub_names ses_names with
  | [] => .ok ()
  | i :: _ => .error i

/-- The name whose occurrences of a tag split it into the given segments:
`interleave_tag tag [s0, s1, ..., sk]` is `s0 ++ tag ++ s1 ++ ... ++ tag
++ sk`.  Used to state that tag expansion replaces every occurrence. -/
def interleave_tag (pat : Str) : List Str → Str
  | [] => []
  | [s] => s
  | s :: s2 :: rest => s ++ pat ++ interleave_tag pat (s2 :: rest)

/-! ## Helper lemmas -/

theorem le_foldl_max (a : Nat) (l : List Nat) : a ≤ l.foldl max a := by
  induction l generalizing a with
  | nil => exact le_rfl
  | cons b t ih => exact le_trans (le_max_left a b) (ih (max a b))

theorem mem_le_foldl_max {x : Nat} {l : List Nat} (a : Nat) (hx : x ∈ l) :
    x ≤ l.foldl max a := by
  induction l generalizing a with
  | nil => cases hx
  | cons b t ih =>
    rcases List.mem_cons.mp hx with h | h
    · subst h; exact le_trans (le_max_right a x) (le_foldl_max _ t)
    · exact ih _ h

theorem foldl_max_le {l : List Nat} {m : Nat} {a : Nat} (ha : a ≤ m)
    (h : ∀ x ∈ l, x ≤ m) : l.foldl max a ≤ m := by
  induction l generalizing a with
  | nil => exact ha
  | cons b t ih =>
    exact ih (max_le ha (h b (List.mem_cons_self b t)))
      (fun x hx => h x (List.mem_cons_of_mem b hx))

theorem foldl_max_eq {l : List Nat} {m : Nat} (hmem : m ∈ l)
    (hle : ∀ x ∈ l, x ≤ m) : l.foldl max 0 = m :=
  le_antisymm (foldl_max_le (Nat.zero_le m) hle) (mem_le_foldl_max 0 hmem)

theorem dedup_of_all_eq {α : Type} [DecidableEq α] {l : List α} {w : α}
    (hne : l ≠ []) (h : ∀ x ∈ l, x = w) : l.dedup = [w] := by
  induction l with
  | nil => exact absurd rfl hne
  | cons a t ih =>
    cases t with
    | nil =>
      rw [List.dedup_cons_of_not_mem (by simp), List.dedup_nil,
        h a (by simp)]
    | cons b t2 =>
      have hmem : a ∈ b :: t2 := by
        rw [h a (by simp), ← h b (by simp)]; simp
      rw [List.dedup_cons_of_mem hmem]
      exact ih (by simp) (fun x hx => h x (List.mem_cons_of_mem a hx))

theorem dedup_length_le_one_iff {α : Type} [DecidableEq α] {l : List α} :
    l.dedup.length ≤ 1 ↔ ∀ a ∈ l, ∀ b ∈ l, a = b := by
  constructor
  · intro h a ha b hb
    have ha2 : a ∈ l.dedup := List.mem_dedup.mpr ha
    have hb2 : b ∈ l.dedup := List.mem_dedup.mpr hb
    match hd : l.dedup with
    | [] => rw [hd] at ha2; cases ha2
    | [x] => rw [hd] at ha2 hb2; simp at ha2 hb2; rw [ha2, hb2]
    | x :: y :: t => rw [hd] at h; simp at h
  · intro h
    cases l with
    | nil => simp
    | cons a t =>
      rw [dedup_of_all_eq (l := a :: t) (w := a) (by simp)
        (fun x hx => h x hx a (by simp))]
      simp

theorem get_values_ok {key : Str} {folders : List Str}
    (h : ∀ f ∈ folders, (get_value_from_bids_name key f).isSome = true) :
    get_values_from_bids_formatted_name key folders
      = .ok (primary_values key folders)
    ∧ (primary_values key folders).length = folders.length := by
  induction folders with
  | nil => exact ⟨rfl, rfl⟩
  | cons f rest ih =>
    obtain ⟨v, hv⟩ := Option.isSome_iff_exists.mp (h f (by simp))
    obtain ⟨ih1, ih2⟩ := ih (fun g hg => h g (by simp [hg]))
    refine ⟨?_, ?_⟩
    · simp only [get_values_from_bids_formatted_name, hv, ih1,
        primary_values, List.filterMap_cons]
    · simp only [primary_values, List.filterMap_cons, hv, List.length_cons]
      simp only [primary_values] at ih2
      rw [ih2]

theorem values_to_ints_ok {vs : List Str}
    (h : ∀ v ∈ vs, v.isEmpty = false ∧ v.all Char.isDigit = true) :
    values_to_ints vs = .ok (vs.map digits_to_nat) := by
  induction vs with
  | nil => rfl
  | cons v rest ih =>
    obtain ⟨h1, h2⟩ := h v (by simp)
    have hv : sub_or_ses_value_to_int v = .ok (digits_to_nat v) := by
      simp [sub_or_ses_value_to_int, h1, h2]
    simp [values_to_ints, hv, ih (fun u hu => h u (by simp [hu]))]

theorem get_max_uniform {folders : List Str} {key : Str} {w m : Nat}
    (d : Nat) (hne : folders ≠ [])
    (hsome : ∀ f ∈ folders, (get_value_from_bids_name key f).isSome = true)
    (hdig : ∀ v ∈ primary_values key folders,
      v.isEmpty = false ∧ v.all Char.isDigit = true ∧ v.length = w)
    (hmem : m ∈ primary_value_nums key folders)
    (hle : ∀ x ∈ primary_value_nums key folders, x ≤ m) :
    get_max_sub_or_ses_num_and_value_length folders key d = .ok (m, w) := by
  obtain ⟨hvals, hlen⟩ := get_values_ok hsome
  have hvne : primary_values key folders ≠ [] := by
    intro hv
    rw [hv] at hlen
    exact hne (List.length_eq_zero.mp hlen.symm)
  have hallw : ∀ x ∈ (primary_values key folders).map List.length, x = w := by
    intro x hx
    obtain ⟨v, hv, hvx⟩ := List.mem_map.mp hx
    rw [← hvx]
    exact (hdig v hv).2.2
  have hdedup : ((primary_values key folders).map List.length).dedup = [w] :=
    dedup_of_all_eq (by simp [hvne]) hallw
  have hints : values_to_ints (primary_values key folders)
      = .ok ((primary_values key folders).map digits_to_nat) :=
    values_to_ints_ok (fun v hv => ⟨(hdig v hv).1, (hdig v hv).2.1⟩)
  have hfold : ((primary_values key folders).map digits_to_nat).foldl max 0 = m :=
    foldl_max_eq hmem hle
  have hhead : ((primary_values key folders).map List.length).headD 0 = w := by
    match hp : primary_values key folders with
    | [] => exact absurd hp hvne
    | v :: rest =>
      have := hallw v.length (by rw [hp]; simp)
      simp [this]
  rw [get_max_sub_or_ses_num_and_value_length,
    if_neg (by simpa [List.length_eq_zero] using hne), hvals]
  simp only [hdedup, List.length_cons, List.length_nil]
  rw [if_neg (by simp), hints]
  simp only [hfold, hhead]

theorem nat_digits_rev_length_gt {w : Nat} :
    ∀ fuel n, n ≤ fuel → 10 ^ w ≤ n → w < (nat_digits_rev fuel n).length := by
  induction w with
  | zero =>
    intro fuel n hfuel hpow
    cases fuel with
    | zero => omega
    | succ f =>
      have hn : ¬ n = 0 := by
        have := Nat.lt_of_lt_of_le Nat.zero_lt_one hpow
        omega
      simp [nat_digits_rev, hn]
  | succ w ih =>
    intro fuel n hfuel hpow
    have h10 : 10 ≤ n := by
      calc 10 = 10 ^ 1 := (pow_one 10).symm
      _ ≤ 10 ^ (w + 1) := Nat.pow_le_pow_right (by omega) (by omega)
      _ ≤ n := hpow
    cases fuel with
    | zero => omega
    | succ f =>
      have hn : ¬ n = 0 := by omega
      have hdiv_lt : n / 10 < n := Nat.div_lt_self (by omega) (by omega)
      have hdivpow : 10 ^ w ≤ n / 10 := by
        rw [Nat.le_div_iff_mul_le (by omega)]
        calc 10 ^ w * 10 = 10 ^ (w + 1) := (pow_succ 10 w).symm
        _ ≤ n := hpow
      have hrec := ih f (n / 10) (by omega) hdivpow
      simp only [nat_digits_rev, hn, if_false, List.length_cons]
      omega

theorem nat_to_str_length_gt {w n : Nat} (h : 10 ^ w ≤ n) :
    w < (nat_to_str n).length := by
  have hn : ¬ n = 0 := by
    have : 0 < 10 ^ w := Nat.pos_pow_of_pos w (by omega)
    omega
  rw [nat_to_str, if_neg hn, List.length_reverse]
  exact nat_digits_rev_length_gt n n le_rfl h

theorem zfill_of_le {s : Str} {w : Nat} (h : w ≤ s.length) : zfill s w = s := by
  simp [zfill, Nat.sub_eq_zero_of_le h]

/-! ## Claim theorems -/

/-- C1: for a non-empty set of existing names whose primary numeric values
all have digit width `w` and maximum numeric value `m`,
`get_next_sub_or_ses_number` returns `m + 1` zero-padded to width `w`,
with `key-` (`sub-`/`ses-`) prepended exactly when the caller requests the
prefixed form. -/
theorem claim1_suggest_next_number (folders : List Str) (key : Str)
    (w m d : Nat) (hne : folders ≠ [])
    (hsome : ∀ f ∈ folders, (get_value_from_bids_name key f).isSome = true)
    (hdig : ∀ v ∈ primary_values key folders,
      v.isEmpty = false ∧ v.all Char.isDigit = true ∧ v.length = w)
    (hmem : m ∈ primary_value_nums key folders)
    (hle : ∀ x ∈ primary_value_nums key folders, x ≤ m) :
    get_next_sub_or_ses_number folders key true d
      = .ok (key ++ '-' :: zfill (nat_to_str (m + 1)) w)
    ∧ get_next_sub_or_ses_number folders key false d
      = .ok (zfill (nat_to_str (m + 1)) w) := by
  have h := get_max_uniform d hne hsome hdig hmem hle
  constructor <;> simp [get_next_sub_or_ses_number, h]

theorem claim1_suggest_next_number_witness :
    get_next_sub_or_ses_number
        ["sub-001".toList, "sub-002".toList, "sub-003".toList] sub_key true 3
      = .ok "sub-004".toList
    ∧ get_next_sub_or_ses_number
        ["sub-001".toList, "sub-002".toList, "sub-003".toList] sub_key false 3
      = .ok "004".toList := by
  have h := claim1_suggest_next_number
    ["sub-001".toList, "sub-002".toList, "sub-003".toList] sub_key 3 3 3
    (by decide) (by decide) (by decide) (by decide) (by decide)
  exact h

/-- C5: when the set of existing names is empty,
`get_next_sub_or_ses_number` with the default digit width 3 returns the
value 1 zero-padded to that width, i.e. `"001"`, prefixed as
`"sub-001"`/`"ses-001"` when the prefixed form is requested; the
zero-padding applies in bare-value mode too. -/
theorem claim5_empty_default :
    get_next_sub_or_ses_number [] sub_key true 3 = .ok "sub-001".toList
    ∧ get_next_sub_or_ses_number [] sub_key false 3 = .ok "001".toList
    ∧ get_next_sub_or_ses_number [] ses_key true 3 = .ok "ses-001".toList
    ∧ get_next_sub_or_ses_number [] ses_key false 3 = .ok "001".toList := by
  exact ⟨rfl, rfl, rfl, rfl⟩

/-- C9: when all existing primary values have digit width `w` and maximum
value `m` with `m + 1 ≥ 10 ^ w`, `get_next_sub_or_ses_number` succeeds and
returns the full decimal representation of `m + 1`, which has more than
`w` digits: the zero-padding never truncates and overflowing the
established width raises no error. -/
theorem claim9_width_overflow (folders : List Str) (key : Str)
    (w m d : Nat) (hne : folders ≠ [])
    (hsome : ∀ f ∈ folders, (get_value_from_bids_name key f).isSome = true)
    (hdig : ∀ v ∈ primary_values key folders,
      v.isEmpty = false ∧ v.all Char.isDigit = true ∧ v.length = w)
    (hmem : m ∈ primary_value_nums key folders)
    (hle : ∀ x ∈ primary_value_nums key folders, x ≤ m)
    (hpow : 10 ^ w ≤ m + 1) :
    get_next_sub_or_ses_number folders key false d = .ok (nat_to_str (m + 1))
    ∧ get_next_sub_or_ses_number folders key true d
      = .ok (key ++ '-' :: nat_to_str (m + 1))
    ∧ w < (nat_to_str (m + 1)).length := by
  have hmax := get_max_uniform d hne hsome hdig hmem hle
  have hlen := nat_to_str_length_gt hpow
  have hz : zfill (nat_to_str (m + 1)) w = nat_to_str (m + 1) :=
    zfill_of_le (le_of_lt hlen)
  refine ⟨?_, ?_, hlen⟩ <;> simp [get_next_sub_or_ses_number, hmax, hz]

theorem claim9_width_overflow_witness :
    get_next_sub_or_ses_number ["sub-999".toList] sub_key false 3
      = .ok "1000".toList
    ∧ get_next_sub_or_ses_number ["sub-999".toList] sub_key true 3
      = .ok "sub-1000".toList := by
  have h := claim9_width_overflow ["sub-999".toList] sub_key 3 999 3
    (by decide) (by decide) (by decide) (by decide) (by decide) (by decide)
  exact ⟨h.1, h.2.1⟩

theorem ensure_forall₂ (names : List Str) (pfx : Str) :
    List.Forall₂
      (fun n r => (pfx <+: n → r = n) ∧ (¬ pfx <+: n → r = pfx ++ n))
      names (ensure_prefixes_on_list_of_names names pfx) := by
  induction names with
  | nil => exact List.Forall₂.nil
  | cons n t ih =>
    simp only [ensure_prefixes_on_list_of_names, List.map_cons]
    simp only [ensure_prefixes_on_list_of_names] at ih
    refine List.Forall₂.cons ⟨?_, ?_⟩ ih
    · intro hp
      have ht : n.take pfx.length = pfx := (List.prefix_iff_eq_take.mp hp).symm
      simp [ht]
    · intro hp
      have ht : ¬ n.take pfx.length = pfx :=
        fun he => hp (List.prefix_iff_eq_take.mpr he.symm)
      simp [ht]

theorem ensure_idem (names : List Str) (pfx : Str) :
    ensure_prefixes_on_list_of_names
        (ensure_prefixes_on_list_of_names names pfx) pfx
      = ensure_prefixes_on_list_of_names names pfx := by
  simp only [ensure_prefixes_on_list_of_names, List.map_map]
  apply List.map_congr_left
  intro n _
  simp only [Function.comp_apply]
  by_cases h : n.take pfx.length = pfx
  · have h1 : ¬ n.take pfx.length ≠ pfx := by simp [h]
    rw [if_neg h1, if_neg h1]
  · have h1 : n.take pfx.length ≠ pfx := h
    rw [if_pos h1]
    have h2 : ¬ (pfx ++ n).take pfx.length ≠ pfx := by
      simp [List.take_left]
    rw [if_neg h2]

/-- C10: for a list of candidate names whose prefixed forms contain no
duplicates, `process_names` succeeds with a list of the same length and
order in which every name already starting with the prefix is unchanged
and every other name has the prefix prepended; the operation is
idempotent. -/
theorem claim10_process_names (names : List Str) (pfx : Str)
    (hnodup : (ensure_prefixes_on_list_of_names names pfx).Nodup) :
    process_names names pfx
      = .ok (ensure_prefixes_on_list_of_names names pfx)
    ∧ (ensure_prefixes_on_list_of_names names pfx).length = names.length
    ∧ List.Forall₂
        (fun n r => (pfx <+: n → r = n) ∧ (¬ pfx <+: n → r = pfx ++ n))
        names (ensure_prefixes_on_list_of_names names pfx)
    ∧ process_names (ensure_prefixes_on_list_of_names names pfx) pfx
      = .ok (ensure_prefixes_on_list_of_names names pfx) := by
  have hdedup := List.dedup_eq_self.mpr hnodup
  refine ⟨?_, ?_, ensure_forall₂ names pfx, ?_⟩
  · simp only [process_names]
    rw [if_neg (by rw [hdedup]; simp)]
  · simp [ensure_prefixes_on_list_of_names]
  · simp only [process_names, ensure_idem]
    rw [if_neg (by rw [hdedup]; simp)]

theorem claim10_process_names_witness :
    process_names ["00011".toList, "sub-00002".toList, "30303".toList]
        "sub-".toList
      = .ok ["sub-00011".toList, "sub-00002".toList, "sub-30303".toList]
    ∧ process_names
        ["sub-00011".toList, "sub-00002".toList, "sub-30303".toList]
        "sub-".toList
      = .ok ["sub-00011".toList, "sub-00002".toList, "sub-30303".toList] := by
  have h := claim10_process_names
    ["00011".toList, "sub-00002".toList, "30303".toList] "sub-".toList
    (by decide)
  exact ⟨h.1, h.2.2.2⟩

/-- C8: the candidate `"sub_100"` with expected key `"sub"` (and
`"ses_100"` with `"ses"`): the prefixing step of the source normalizes it
to `"sub-sub_100"`, whose extracted primary value is the literal `"sub"`
itself, and the integer conversion rejects it with the `InvalidCharacter`
error rather than silently parsing. -/
theorem claim8_prefix_fusion :
    ensure_prefixes_on_list_of_names ["sub_100".toList] "sub-".toList
      = ["sub-sub_100".toList]
    ∧ get_value_from_bids_name sub_key "sub-sub_100".toList = some sub_key
    ∧ sub_or_ses_value_to_int "sub".toList
      = .error (invalid_char_message "sub".toList)
    ∧ ensure_prefixes_on_list_of_names ["ses_100".toList] "ses-".toList
      = ["ses-ses_100".toList]
    ∧ get_value_from_bids_name ses_key "ses-ses_100".toList = some ses_key
    ∧ sub_or_ses_value_to_int "ses".toList
      = .error (invalid_char_message "ses".toList) := by
  exact ⟨rfl, rfl, rfl, rfl, rfl, rfl⟩

theorem replace_all_fuel_no_occurrence {pat repl : Str} :
    ∀ (fuel : Nat) (text : Str), ¬ pat <:+: text →
      replace_all_fuel pat repl fuel text = text := by
  intro fuel
  induction fuel with
  | zero => intro text _; rfl
  | succ f ih =>
    intro text hinf
    cases text with
    | nil => rfl
    | cons c rest =>
      have hc : ¬ (pat.isPrefixOf (c :: rest) && !pat.isEmpty) = true := by
        intro hand
        have hp : pat <+: c :: rest :=
          List.isPrefixOf_iff_prefix.mp (Bool.and_elim_left hand)
        exact hinf hp.isInfix
      simp only [replace_all_fuel, if_neg hc]
      rw [ih rest (fun h => hinf (List.infix_cons h))]

theorem replace_all_no_occurrence {pat repl text : Str}
    (h : ¬ pat <:+: text) : replace_all pat repl text = text :=
  replace_all_fuel_no_occurrence text.length text h

theorem prefix_take_of_le {α : Type} {l₁ l₂ : List α} {n : Nat}
    (h : l₁ <+: l₂) (hn : l₁.length ≤ n) : l₁ <+: l₂.take n := by
  rw [List.prefix_iff_eq_take] at h ⊢
  rw [List.take_take, Nat.min_eq_left hn]
  exact h

theorem replace_all_fuel_congr {pat repl : Str} :
    ∀ fuel1 fuel2 text, text.length ≤ fuel1 → text.length ≤ fuel2 →
      replace_all_fuel pat repl fuel1 text
        = replace_all_fuel pat repl fuel2 text := by
  intro fuel1
  induction fuel1 with
  | zero =>
    intro fuel2 text h1 _
    have ht : text = [] := List.length_eq_zero.mp (Nat.le_zero.mp h1)
    subst ht
    cases fuel2 <;> rfl
  | succ f ih =>
    intro fuel2 text h1 h2
    cases text with
    | nil => cases fuel2 <;> rfl
    | cons c rest =>
      cases fuel2 with
      | zero => simp at h2
      | succ g =>
        simp only [replace_all_fuel]
        simp only [List.length_cons] at h1 h2
        by_cases hc : (pat.isPrefixOf (c :: rest) && !pat.isEmpty) = true
        · have hplen : 1 ≤ pat.length := by
            rcases pat with _ | ⟨p, pt⟩
            · simp at hc
            · simp
          rw [if_pos hc, if_pos hc]
          congr 1
          apply ih <;>
            · simp only [List.length_drop, List.length_cons]
              omega
        · rw [if_neg hc, if_neg hc]
          congr 1
          apply ih <;> omega

theorem replace_all_fuel_eq {pat repl : Str} {fuel : Nat} {text : Str}
    (h : text.length ≤ fuel) :
    replace_all_fuel pat repl fuel text = replace_all pat repl text :=
  replace_all_fuel_congr fuel text.length text h le_rfl

theorem clean_no_occurrence {pat s : Str}
    (h : ¬ pat <:+: s ++ pat.dropLast) : ¬ pat <:+: s :=
  fun hocc => h (hocc.trans (List.prefix_append s pat.dropLast).isInfix)

theorem replace_all_head {pat repl : Str} (hp : pat ≠ []) (rest : Str) :
    replace_all pat repl (pat ++ rest) = repl ++ replace_all pat repl rest := by
  rcases pat with _ | ⟨p, pt⟩
  · exact absurd rfl hp
  · have hshape : (p :: pt) ++ rest = p :: (pt ++ rest) := by simp
    have hcond : ((p :: pt).isPrefixOf (p :: (pt ++ rest))
        && !(p :: pt).isEmpty) = true := by
      have hpre : (p :: pt) <+: (p :: pt) ++ rest := List.prefix_append _ _
      rw [hshape] at hpre
      simp [List.isPrefixOf_iff_prefix, hpre]
    rw [hshape]
    show replace_all_fuel (p :: pt) repl
      (p :: (pt ++ rest)).length (p :: (pt ++ rest)) = _
    rw [List.length_cons]
    simp only [replace_all_fuel]
    rw [if_pos hcond]
    congr 1
    have hdrop : (p :: (pt ++ rest)).drop (p :: pt).length = rest := by
      have h := List.drop_left (p :: pt) rest
      rwa [hshape] at h
    rw [hdrop]
    apply replace_all_fuel_eq
    simp only [List.length_append]
    omega

theorem replace_all_cons_of_no_match {pat repl : Str} {a : Char} {t : Str}
    (h : ¬ (pat.isPrefixOf (a :: t) && !pat.isEmpty) = true) :
    replace_all pat repl (a :: t) = a :: replace_all pat repl t := by
  show replace_all_fuel pat repl (a :: t).length (a :: t) = _
  rw [List.length_cons]
  simp only [replace_all_fuel]
  rw [if_neg h]
  rw [replace_all_fuel_eq le_rfl]

theorem replace_all_segment {pat repl : Str} (hp : pat ≠ []) :
    ∀ s rest, ¬ pat <:+: s ++ pat.dropLast →
      replace_all pat repl (s ++ pat ++ rest)
        = s ++ repl ++ replace_all pat repl rest := by
  intro s
  induction s with
  | nil =>
    intro rest _
    simp only [List.nil_append]
    exact replace_all_head hp rest
  | cons a s' ih =>
    intro rest hclean
    have hplen : 1 ≤ pat.length := by
      rcases pat with _ | _
      · exact absurd rfl hp
      · simp
    have hnomatch :
        ¬ (pat.isPrefixOf (a :: (s' ++ pat ++ rest)) && !pat.isEmpty) = true := by
      intro hand
      have hpre : pat <+: a :: (s' ++ pat ++ rest) :=
        List.isPrefixOf_iff_prefix.mp (Bool.and_elim_left hand)
      have hform : a :: (s' ++ pat ++ rest) = ((a :: s') ++ pat) ++ rest := by
        simp
      rw [hform] at hpre
      have htake : pat <+:
          (((a :: s') ++ pat) ++ rest).take ((a :: s').length + (pat.length - 1)) :=
        prefix_take_of_le hpre (by simp only [List.length_cons]; omega)
      have heq : (((a :: s') ++ pat) ++ rest).take
            ((a :: s').length + (pat.length - 1))
          = (a :: s') ++ pat.dropLast := by
        rw [List.append_assoc, List.take_append]
        congr 1
        rw [List.take_append_of_le_length (by omega), ← List.dropLast_eq_take]
      rw [heq] at htake
      exact hclean htake.isInfix
    have hclean' : ¬ pat <:+: s' ++ pat.dropLast :=
      fun h => hclean (List.infix_cons h)
    have hshape : (a :: s') ++ pat ++ rest = a :: (s' ++ pat ++ rest) := by
      simp
    rw [hshape, replace_all_cons_of_no_match hnomatch, ih rest hclean']
    simp

theorem replace_all_interleave {pat repl : Str} (hp : pat ≠ []) :
    ∀ segs, (∀ s ∈ segs, ¬ pat <:+: s ++ pat.dropLast) →
      replace_all pat repl (interleave_tag pat segs)
        = interleave_tag repl segs := by
  intro segs
  induction segs with
  | nil => intro _; rfl
  | cons s rest ih =>
    intro h
    cases rest with
    | nil =>
      simp only [interleave_tag]
      exact replace_all_no_occurrence (clean_no_occurrence (h s (by simp)))
    | cons s2 rest2 =>
      simp only [interleave_tag]
      rw [replace_all_segment hp s _ (h s (by simp))]
      rw [ih (fun x hx => h x (by simp [hx]))]

/-- C6 (amended): tag expansion replaces every literal occurrence of
`@DATE@` with the current date `YYYYMMDD`, `@TIME@` with the current
time `HHMMSS`, and `@DATETIME@` with `datetime-YYYYMMDDTHHMMSS`; a name
containing none of these tokens is returned unchanged.  A name whose
occurrences of a tag split it into segments `s0, ..., sk` is
`interleave_tag tag [s0, ..., sk]`, so each conjunct quantifies over
every name with any number of occurrences of that tag; the side
conditions state that the occurrences are literal and disjoint (no
partial occurrence straddles a segment boundary, spelled
`¬ tag <:+: s ++ tag.dropLast`) and that no other tag occurs. -/
theorem claim6_amended_tag_expansion (date time name : Str)
    (h1 : ¬ date_tag <:+: name) (h2 : ¬ time_tag <:+: name)
    (h3 : ¬ datetime_tag <:+: name) :
    replace_date_time_tags_in_name date time name = name
    ∧ (∀ segs, (∀ s ∈ segs, ¬ date_tag <:+: s ++ date_tag.dropLast) →
        ¬ datetime_tag <:+: interleave_tag date_tag segs →
        ¬ time_tag <:+: interleave_tag date segs →
        replace_date_time_tags_in_name date time (interleave_tag date_tag segs)
          = interleave_tag date segs)
    ∧ (∀ segs, (∀ s ∈ segs, ¬ time_tag <:+: s ++ time_tag.dropLast) →
        ¬ datetime_tag <:+: interleave_tag time_tag segs →
        ¬ date_tag <:+: interleave_tag time_tag segs →
        replace_date_time_tags_in_name date time (interleave_tag time_tag segs)
          = interleave_tag time segs)
    ∧ (∀ segs,
        (∀ s ∈ segs, ¬ datetime_tag <:+: s ++ datetime_tag.dropLast) →
        ¬ date_tag <:+:
          interleave_tag ("datetime-".toList ++ date ++ ['T'] ++ time) segs →
        ¬ time_tag <:+:
          interleave_tag ("datetime-".toList ++ date ++ ['T'] ++ time) segs →
        replace_date_time_tags_in_name date time
            (interleave_tag datetime_tag segs)
          = interleave_tag ("datetime-".toList ++ date ++ ['T'] ++ time) segs)
    := by
  refine ⟨?_, ?_, ?_, ?_⟩
  · unfold replace_date_time_tags_in_name
    rw [replace_all_no_occurrence h3, replace_all_no_occurrence h1,
      replace_all_no_occurrence h2]
  · intro segs hsegs hdt htm
    unfold replace_date_time_tags_in_name
    rw [replace_all_no_occurrence hdt,
      replace_all_interleave (by decide) segs hsegs,
      replace_all_no_occurrence htm]
  · intro segs hsegs hdt hdate
    unfold replace_date_time_tags_in_name
    rw [replace_all_no_occurrence hdt, replace_all_no_occurrence hdate,
      replace_all_interleave (by decide) segs hsegs]
  · intro segs hsegs hdate htime
    unfold replace_date_time_tags_in_name
    rw [replace_all_interleave (by decide) segs hsegs,
      replace_all_no_occurrence hdate, replace_all_no_occurrence htime]

theorem claim6_amended_tag_expansion_witness :
    replace_date_time_tags_in_name "20230101".toList "120000".toList
        "sub-001_id-abc".toList = "sub-001_id-abc".toList
    ∧ replace_date_time_tags_in_name "20230101".toList "120000".toList
        "ses-001_@DATE@_x_@DATE@".toList
      = "ses-001_20230101_x_20230101".toList
    ∧ replace_date_time_tags_in_name "20230101".toList "120000".toList
        "ses-001_@TIME@_x_@TIME@".toList
      = "ses-001_120000_x_120000".toList
    ∧ replace_date_time_tags_in_name "20230101".toList "120000".toList
        "ses-001_@DATETIME@".toList
      = "ses-001_datetime-20230101T120000".toList := by
  have h := claim6_amended_tag_expansion "20230101".toList "120000".toList
    "sub-001_id-abc".toList (by decide) (by decide) (by decide)
  refine ⟨h.1, ?_, ?_, ?_⟩
  · exact h.2.1 ["ses-001_".toList, "_x_".toList, []]
      (by decide) (by decide) (by decide)
  · exact h.2.2.1 ["ses-001_".toList, "_x_".toList, []]
      (by decide) (by decide) (by decide)
  · exact h.2.2.2 ["ses-001_".toList, []]
      (by decide) (by decide) (by decide)

/-- C6 counterexample: on the name `"ses-001_@DATETIME@"` with date
`20230101` and time `120000`, the tag expander produces the
`datetime-20230101T120000` key-value form — not the
`date-20230101T120000` form the claim states. -/
theorem claim6_counterexample :
    replace_date_time_tags_in_name "20230101".toList "120000".toList
        "ses-001_@DATETIME@".toList
      = "ses-001_datetime-20230101T120000".toList
    ∧ "ses-001_datetime-20230101T120000".toList
      ≠ "ses-001_date-20230101T120000".toList := by
  exact ⟨by decide, by decide⟩

theorem check_padding_shape {key : Str} {names : List Str} {i : Issue}
    (h : check_inconsistent_padding key names = some i) :
    i = mk_padding_issue key := by
  rw [check_inconsistent_padding] at h
  split at h
  · exact (Option.some_inj.mp h).symm
  · cases h

theorem mem_new_name_duplicate_issues {key c : Str} {existing : List Str}
    {i : Issue} :
    i ∈ new_name_duplicate_issues key c existing ↔
      ∃ e ∈ existing, (primary_id_num key c).isSome = true
        ∧ primary_id_num key e = primary_id_num key c ∧ e ≠ c
        ∧ i = mk_duplicate_issue key c e := by
  rw [new_name_duplicate_issues, List.mem_filterMap]
  constructor
  · rintro ⟨e, he, hsome⟩
    split at hsome
    case isTrue hcond =>
      exact ⟨e, he, hcond.1, hcond.2.1, hcond.2.2,
        (Option.some_inj.mp hsome).symm⟩
    case isFalse => cases hsome
  · rintro ⟨e, he, h1, h2, h3, h4⟩
    exact ⟨e, he, by rw [if_pos ⟨h1, h2, h3⟩, h4]⟩

theorem mem_padding_value_lengths {key : Str} {names : List Str} {x : Nat} :
    x ∈ padding_value_lengths key names ↔
      ∃ n ∈ names, ∃ v, numeric_value key n = some v ∧ v.length = x := by
  rw [padding_value_lengths, List.mem_map]
  constructor
  · rintro ⟨v, hv, hlen⟩
    obtain ⟨n, hn, hnv⟩ := List.mem_filterMap.mp hv
    exact ⟨n, hn, v, hnv, hlen⟩
  · rintro ⟨n, hn, v, hnv, hlen⟩
    exact ⟨v, List.mem_filterMap.mpr ⟨n, hn, hnv⟩, hlen⟩

theorem one_lt_dedup_length_iff {α : Type} [DecidableEq α] {l : List α} :
    1 < l.dedup.length ↔ ∃ a ∈ l, ∃ b ∈ l, a ≠ b := by
  constructor
  · intro h
    by_contra hno
    push_neg at hno
    rw [← Nat.not_le] at h
    exact h (dedup_length_le_one_iff.mpr hno)
  · rintro ⟨a, ha, b, hb, hab⟩
    by_contra h
    rw [Nat.not_lt] at h
    exact hab (dedup_length_le_one_iff.mp h a ha b hb)

theorem check_padding_some_iff {key : Str} {names : List Str} :
    check_inconsistent_padding key names = some (mk_padding_issue key) ↔
      ∃ n1 ∈ names, ∃ n2 ∈ names, ∃ v1 v2,
        numeric_value key n1 = some v1 ∧ numeric_value key n2 = some v2
        ∧ v1.length ≠ v2.length := by
  constructor
  · intro h
    rw [check_inconsistent_padding] at h
    split at h
    case isTrue hc =>
      obtain ⟨a, ha, b, hb, hab⟩ := one_lt_dedup_length_iff.mp hc
      obtain ⟨n1, hn1, v1, hv1, hl1⟩ := mem_padding_value_lengths.mp ha
      obtain ⟨n2, hn2, v2, hv2, hl2⟩ := mem_padding_value_lengths.mp hb
      exact ⟨n1, hn1, n2, hn2, v1, v2, hv1, hv2, by rw [hl1, hl2]; exact hab⟩
    case isFalse => cases h
  · rintro ⟨n1, hn1, n2, hn2, v1, v2, hv1, hv2, hne⟩
    have hlt : 1 < (padding_value_lengths key names).dedup.length :=
      one_lt_dedup_length_iff.mpr
        ⟨v1.length, mem_padding_value_lengths.mpr ⟨n1, hn1, v1, hv1, rfl⟩,
         v2.length, mem_padding_value_lengths.mpr ⟨n2, hn2, v2, hv2, rfl⟩, hne⟩
    rw [check_inconsistent_padding, if_pos hlt]

/-- C3: at one hierarchy level, validation over the combined collection
of existing plus candidate names emits an `InconsistentPadding` issue
naming the key exactly when two of the numeric primary value strings have
different digit counts (leading zeros included); when all digit counts
agree no `InconsistentPadding` issue is emitted. -/
theorem claim3_inconsistent_padding (existing candidates : List Str)
    (key : Str) :
    (∃ i ∈ validate_names_against_project existing candidates key,
        i.kind = IssueKind.inconsistentPadding key)
      ↔ ∃ n1 ∈ existing ++ candidates, ∃ n2 ∈ existing ++ candidates,
          ∃ v1 v2, numeric_value key n1 = some v1
            ∧ numeric_value key n2 = some v2 ∧ v1.length ≠ v2.length := by
  rw [← check_padding_some_iff]
  constructor
  · rintro ⟨i, hi, hkind⟩
    rw [validate_names_against_project] at hi
    rcases List.mem_append.mp hi with hpad | hdup
    · rw [Option.mem_toList, Option.mem_def] at hpad
      rw [← check_padding_shape hpad]
      exact hpad
    · obtain ⟨lsub, hlsub, hilsub⟩ := List.mem_flatten.mp hdup
      obtain ⟨c, _, hceq⟩ := List.mem_map.mp hlsub
      rw [← hceq] at hilsub
      obtain ⟨e, _, _, _, _, hieq⟩ :=
        mem_new_name_duplicate_issues.mp hilsub
      rw [hieq] at hkind
      simp [mk_duplicate_issue] at hkind
  · intro h
    refine ⟨mk_padding_issue key, ?_, rfl⟩
    rw [validate_names_against_project]
    exact List.mem_append.mpr (Or.inl (by simp [h]))

theorem claim3_inconsistent_padding_witness :
    ∃ i ∈ validate_names_against_project
        ["sub-001".toList, "sub-002".toList] ["sub-3".toList] sub_key,
      i.kind = IssueKind.inconsistentPadding sub_key := by
  exact (claim3_inconsistent_padding
    ["sub-001".toList, "sub-002".toList] ["sub-3".toList] sub_key).mpr
    ⟨"sub-001".toList, by decide, "sub-3".toList, by decide,
      "001".toList, "3".toList, by decide, by decide, by decide⟩

/-- C2: validation of candidate names against the project produces a
`DuplicateId` issue for a candidate exactly when some existing name at
the same level shares its primary id but differs from it as a full
string; a candidate that is byte-identical to an existing name produces
no `DuplicateId` issue on its own. -/
theorem claim2_duplicate_id (existing candidates : List Str) (key c : Str)
    (hc : c ∈ candidates) :
    (∃ i ∈ validate_names_against_project existing candidates key,
        ∃ e, i.kind = IssueKind.duplicateId c e)
      ↔ ∃ e ∈ existing, e ≠ c ∧ (primary_id_num key c).isSome = true
          ∧ primary_id_num key e = primary_id_num key c := by
  constructor
  · rintro ⟨i, hi, e0, hkind⟩
    rw [validate_names_against_project] at hi
    rcases List.mem_append.mp hi with hpad | hdup
    · rw [Option.mem_toList, Option.mem_def] at hpad
      rw [check_padding_shape hpad] at hkind
      simp [mk_padding_issue] at hkind
    · obtain ⟨lsub, hlsub, hilsub⟩ := List.mem_flatten.mp hdup
      obtain ⟨c2, hc2, hceq⟩ := List.mem_map.mp hlsub
      rw [← hceq] at hilsub
      obtain ⟨e, he, h1, h2, h3, hieq⟩ :=
        mem_new_name_duplicate_issues.mp hilsub
      rw [hieq] at hkind
      have hinj : c2 = c ∧ e = e0 := by
        simpa [mk_duplicate_issue] using hkind
      rw [hinj.1] at h1 h2 h3
      exact ⟨e, he, h3, h1, h2⟩
  · rintro ⟨e, he, hne, hsome, heq⟩
    refine ⟨mk_duplicate_issue key c e, ?_, e, rfl⟩
    rw [validate_names_against_project]
    refine List.mem_append.mpr (Or.inr ?_)
    refine List.mem_flatten.mpr
      ⟨new_name_duplicate_issues key c existing, ?_, ?_⟩
    · exact List.mem_map.mpr ⟨c, hc, rfl⟩
    · exact mem_new_name_duplicate_issues.mpr
        ⟨e, he, hsome, heq, hne, rfl⟩

theorem claim2_duplicate_id_witness :
    (∃ i ∈ validate_names_against_project
        ["sub-1_id-@".toList, "sub-2_id-b".toList, "sub-3_id-c".toList]
        ["sub-2_id-b".toList, "sub-1_id-11".toList, "sub-3_id-c".toList]
        sub_key,
      ∃ e, i.kind = IssueKind.duplicateId "sub-1_id-11".toList e)
    ∧ ¬ (∃ i ∈ validate_names_against_project
        ["sub-1_id-@".toList, "sub-2_id-b".toList, "sub-3_id-c".toList]
        ["sub-2_id-b".toList, "sub-1_id-11".toList, "sub-3_id-c".toList]
        sub_key,
      ∃ e, i.kind = IssueKind.duplicateId "sub-3_id-c".toList e) := by
  constructor
  · exact (claim2_duplicate_id _ _ sub_key _ (by decide)).mpr (by decide)
  · exact fun hcon =>
      absurd ((claim2_duplicate_id _ _ sub_key _ (by decide)).mp hcon)
        (by decide)

/-- C4 (amended): in error mode, validation aborts at the first issue
encountered in the defined scan order: inconsistent-padding issues are
detected and reported before duplicate-id issues, subject-level issues
before session-level issues, and local before central.  The first
conjunct shows a triggered padding check is the raised error — never a
`DuplicateId` — even when a duplicate id is also present; the second
shows the first subject-level issue is raised ahead of any session-level
issue; the third shows the duplicate scan of a candidate against the
local-then-central existing names reports all local conflicts before any
central conflict. -/
theorem claim4_amended_first_error (existing candidates : List Str)
    (key c : Str) (local_subs central_subs : List Str)
    (existing_subs sub_names ses_names : List Str)
    (existing_ses : Str → List Str) :
    (check_inconsistent_padding key (existing ++ candidates)
        = some (mk_padding_issue key) →
      validate_names_error_mode existing candidates key
          = .error (mk_padding_issue key)
        ∧ ∀ c2 e, (mk_padding_issue key).kind ≠ IssueKind.duplicateId c2 e)
    ∧ (∀ i rest,
        validate_names_against_project existing_subs sub_names sub_key
            = i :: rest →
        validate_sub_and_ses_error_mode existing_subs existing_ses
            sub_names ses_names
          = .error i)
    ∧ new_name_duplicate_issues key c (local_subs ++ central_subs)
        = new_name_duplicate_issues key c local_subs
          ++ new_name_duplicate_issues key c central_subs := by
  refine ⟨?_, ?_, ?_⟩
  · intro hp
    constructor
    · unfold validate_names_error_mode validate_names_against_project
      rw [hp]
      rfl
    · intro c2 e h
      simp [mk_padding_issue] at h
  · intro i rest h
    unfold validate_sub_and_ses_error_mode validate_sub_and_ses_names
    rw [h]
    rfl
  · unfold new_name_duplicate_issues
    exact List.filterMap_append local_subs central_subs _

theorem claim4_amended_first_error_witness :
    validate_names_error_mode ["sub-1".toList] ["sub-001".toList] sub_key
      = .error (mk_padding_issue sub_key)
    ∧ validate_sub_and_ses_error_mode ["sub-1".toList]
        (fun _ => ["ses-001".toList]) ["sub-001".toList]
        ["ses-001_id-x".toList]
      = .error (mk_padding_issue sub_key)
    ∧ new_name_duplicate_issues sub_key "sub-1_id-c".toList
        (["sub-1_id-a".toList] ++ ["sub-1_id-b".toList])
      = new_name_duplicate_issues sub_key "sub-1_id-c".toList
          ["sub-1_id-a".toList]
        ++ new_name_duplicate_issues sub_key "sub-1_id-c".toList
          ["sub-1_id-b".toList] := by
  have h := claim4_amended_first_error ["sub-1".toList] ["sub-001".toList]
    sub_key "sub-1_id-c".toList ["sub-1_id-a".toList] ["sub-1_id-b".toList]
    ["sub-1".toList] ["sub-001".toList] ["ses-001_id-x".toList]
    (fun _ => ["ses-001".toList])
  refine ⟨(h.1 (by decide)).1, ?_, h.2.2⟩
  exact h.2.1 (mk_padding_issue sub_key)
    [mk_duplicate_issue sub_key "sub-001".toList "sub-1".toList]
    (by decide)

/-- C4 counterexample: for existing `sub-1` and candidate `sub-001` —
an input that triggers both a duplicate id (both ids are 1) and
inconsistent padding (widths 1 vs 3) — error-mode validation raises the
`InconsistentPadding` issue, not the `DuplicateId` one the claim states;
a `DuplicateId` issue is indeed present, but only later in the scan. -/
theorem claim4_counterexample :
    validate_names_error_mode ["sub-1".toList] ["sub-001".toList] sub_key
      = .error (mk_padding_issue sub_key)
    ∧ issue_is_duplicate_id (mk_padding_issue sub_key) = false
    ∧ (validate_names_against_project ["sub-1".toList] ["sub-001".toList]
        sub_key).any issue_is_duplicate_id = true := by
  exact ⟨rfl, rfl, by decide⟩

/-- C7: when the template config has `on = true` and a template is set
for the relevant key, a candidate that fails the template match (the
regular-expression engine being an external collaborator `match_fn`)
produces a `TemplateMismatch` issue whose message contains both the
rejected name and the template string verbatim; when `on = false` the
stage is skipped entirely, so the same candidate passes regardless of the
stored templates. -/
theorem claim7_name_templates (match_fn : Str → Str → Bool)
    (tcfg : NameTemplates) (key name t : Str) :
    (tcfg.on_flag = false →
      check_name_templates match_fn tcfg key name = none)
    ∧ (tcfg.on_flag = true → template_for tcfg key = some t →
        match_fn t name = false →
        check_name_templates match_fn tcfg key name
            = some (mk_template_issue name t)
          ∧ name <:+: (mk_template_issue name t).message
          ∧ t <:+: (mk_template_issue name t).message) := by
  constructor
  · intro hoff
    rw [check_name_templates, if_pos hoff]
  · intro hon ht hmatch
    refine ⟨?_, ?_, ?_⟩
    · rw [check_name_templates, if_neg (by rw [hon]; simp), ht]
      simp [hmatch]
    · have h := List.infix_append "The name: ".toList name
        (" does not match the template: ".toList ++ t)
      simpa [mk_template_issue, List.append_assoc] using h
    · have h := (List.suffix_append
        ("The name: ".toList ++ name
          ++ " does not match the template: ".toList) t).isInfix
      simpa [mk_template_issue, List.append_assoc] using h

theorem claim7_name_templates_witness :
    check_name_templates (fun _ _ => false)
        ⟨true, some "sub-\\d_id-.?.?_random-.*".toList, none⟩ sub_key
        "sub-3_id-abC_random-helloworld".toList
      = some (mk_template_issue "sub-3_id-abC_random-helloworld".toList
          "sub-\\d_id-.?.?_random-.*".toList)
    ∧ check_name_templates (fun _ _ => false)
        ⟨false, some "sub-\\d_id-.?.?_random-.*".toList, none⟩ sub_key
        "sub-3_id-abC_random-helloworld".toList = none := by
  have h := claim7_name_templates (fun _ _ => false)
    ⟨true, some "sub-\\d_id-.?.?_random-.*".toList, none⟩ sub_key
    "sub-3_id-abC_random-helloworld".toList
    "sub-\\d_id-.?.?_random-.*".toList
  have h2 := claim7_name_templates (fun _ _ => false)
    ⟨false, some "sub-\\d_id-.?.?_random-.*".toList, none⟩ sub_key
    "sub-3_id-abC_random-helloworld".toList
    "sub-\\d_id-.?.?_random-.*".toList
  exact ⟨(h.2 rfl (by decide) rfl).1, h2.1 rfl⟩
